import Mathlib

/-!
Verification development for the YouTube-Video-Notetaker application
(`src/app.py`).  The Python functions `extract_video_id`,
`fetch_transcript_text`, `call_openai`, `parse_sections` and the relevant
fragments of the `index` request handler are shallowly embedded below.
Strings are modelled as Lean `String` / `List Char`; Python exceptions are
modelled with `Except`; the external services (the transcript API, the
OpenAI client) are modelled as explicit oracle records, so that the control
flow of the embedded functions is exactly that of the source.
-/

namespace Notetaker

/-! ### Python string primitives -/

/-- Characters treated as whitespace by Python `str.strip()` (ASCII part;
the URLs and model replies handled here contain no exotic Unicode space). -/
def isSpaceChar (c : Char) : Bool :=
  c = ' ' || c = '\t' || c = '\n' || c = '\r' || c = '\x0b' || c = '\x0c'

/-- Python `s.strip()` on a character list: drop leading and trailing
whitespace. -/
def pyStripList (l : List Char) : List Char :=
  ((l.dropWhile isSpaceChar).reverse.dropWhile isSpaceChar).reverse

/-- Python `s.strip()`. -/
def pyStrip (s : String) : String :=
  ⟨pyStripList s.data⟩

/-- Python `s.lower()` (ASCII case mapping; all heading keywords and host
names compared in the source are ASCII). -/
def pyLower (s : String) : String :=
  ⟨s.data.map Char.toLower⟩

/-- Python `needle in hay` substring test. -/
def hasSub : List Char → List Char → Bool
  | [], needle => needle.isEmpty
  | c :: t, needle => needle.isPrefixOf (c :: t) || hasSub t needle

/-- Python `s.split(c)` for a one-character separator. -/
def splitChar (c : Char) : List Char → List (List Char)
  | [] => [[]]
  | x :: xs =>
    let rest := splitChar c xs
    if x = c then [] :: rest
    else (x :: rest.headD []) :: rest.tail

/-! ### `urllib.parse` model

Model of `urllib.parse.urlparse` / `parse_qs` restricted to what
`extract_video_id` consumes: `hostname` (lower-cased network location
without port), `path` and `query`.  The model assumes no user-info
(`user@host`) component and no percent/plus escapes in the query, which
hold for every URL the development evaluates; when the input has no
`"://"`, the whole input is treated as a path with no hostname, exactly as
`urlparse` does for scheme-less inputs such as `youtu.be/abc`. -/

structure UrlParts where
  hostname : Option (List Char)
  path : List Char
  query : List Char
  deriving Repr

/-- Characters ending the network-location component. -/
def notHostEnd (c : Char) : Bool :=
  !(c = '/' || c = '?' || c = '#')

/-- Characters ending the path component. -/
def notPathEnd (c : Char) : Bool :=
  !(c = '?' || c = '#')

/-- The part after `"://"`, when the input has a scheme with a network
location. -/
def schemeRest? (l : List Char) : Option (List Char) :=
  match l.dropWhile (fun c => c != ':') with
  | ':' :: '/' :: '/' :: rest => some rest
  | _ => none

/-- Query component: everything after the first `'?'` (before any `'#'`). -/
def queryOf (l : List Char) : List Char :=
  match (l.takeWhile (fun c => c != '#')).dropWhile (fun c => c != '?') with
  | _ :: rest => rest
  | [] => []

/-- Model of `urllib.parse.urlparse` (see the section comment above). -/
def urlparse (l : List Char) : UrlParts :=
  match schemeRest? l with
  | none =>
    { hostname := none, path := l.takeWhile notPathEnd, query := queryOf l }
  | some rest =>
    let netloc := rest.takeWhile notHostEnd
    let after := rest.dropWhile notHostEnd
    { hostname :=
        if netloc = [] then none
        else some ((netloc.takeWhile (fun c => c != ':')).map Char.toLower),
      path := after.takeWhile notPathEnd,
      query := queryOf after }

/-- One `key=value` field of a query string, as `parse_qs` admits it:
the field must contain `'='` and the value must be non-empty
(`keep_blank_values` is false). -/
def qsPair? (field : List Char) : Option (List Char × List Char) :=
  match field.dropWhile (fun c => c != '=') with
  | [] => none
  | _ :: v => if v = [] then none else some (field.takeWhile (fun c => c != '='), v)

/-- Model of `urllib.parse.parse_qs` (ordered key/value pairs). -/
def parseQsPairs (q : List Char) : List (List Char × List Char) :=
  (splitChar '&' q).filterMap qsPair?

/-- `parse_qs(q)[key][0]` when `key` is present, `none` otherwise. -/
def qsFirst (q key : List Char) : Option (List Char) :=
  (parseQsPairs q).findSome? (fun p => if p.1 = key then some p.2 else none)

/-! ### URL resolver (`extract_video_id`, app.py lines 14-36) -/

/-- A character of the identifier class `[A-Za-z0-9_-]`. -/
def idChar (c : Char) : Bool :=
  c.isAlphanum || c = '_' || c = '-'

/-- `re.fullmatch(r"[A-Za-z0-9_-]{11}", part)` as a Boolean. -/
def fullmatch11 (l : List Char) : Bool :=
  l.length == 11 && l.all idChar

/-- The capture group `([A-Za-z0-9_-]{11})`: the next eleven characters,
when they are all identifier characters. -/
def classTake (l : List Char) : Option (List Char) :=
  if fullmatch11 (l.take 11) then some (l.take 11) else none

/-- One attempt of the fallback regex
`(?:(?:v=)|(?:be/)|(?:embed/)|(?:shorts/))([A-Za-z0-9_-]{11})` at the head
of `l` (the four alternative literals start with distinct characters, so
their order cannot matter at a fixed position). -/
def matchAlt (l : List Char) : Option (List Char) :=
  (if "v=".data.isPrefixOf l then classTake (l.drop 2) else none) <|>
  (if "be/".data.isPrefixOf l then classTake (l.drop 3) else none) <|>
  (if "embed/".data.isPrefixOf l then classTake (l.drop 6) else none) <|>
  (if "shorts/".data.isPrefixOf l then classTake (l.drop 7) else none)

/-- `re.search` with the fallback pattern: leftmost match wins. -/
def regexSearch : List Char → Option (List Char)
  | [] => none
  | c :: rest =>
    match matchAlt (c :: rest) with
    | some g => some g
    | none => regexSearch rest

/-- Message of the `ValueError` raised for an empty input (app.py line 16). -/
def errEmptyL : List Char := "Please provide a YouTube URL.".data

/-- Message of the `ValueError` raised when nothing matches (app.py line 36). -/
def errNoIdL : List Char := "Could not extract a video ID from the provided URL.".data

/-- `extract_video_id` (app.py lines 14-36) on character lists.  `.error`
is the `ValueError` (`InvalidUrl`) outcome, `.ok` the returned string. -/
def extractL (url : List Char) : Except (List Char) (List Char) :=
  if url = [] then .error errEmptyL
  else
    let parsed := urlparse (pyStripList url)
    let hostResult : Option (List Char) :=
      match parsed.hostname with
      | none => none
      | some h =>
        if h = "youtu.be".data && !(parsed.path = []) then
          some (parsed.path.dropWhile (fun c => c = '/'))
        else if hasSub h "youtube".data then
          let fromWatch :=
            if "/watch".data.isPrefixOf parsed.path then qsFirst parsed.query "v".data
            else none
          match fromWatch with
          | some v => some v
          | none => (splitChar '/' parsed.path).find? (fun part => fullmatch11 part)
        else none
    match hostResult with
    | some v => .ok v
    | none =>
      match regexSearch url with
      | some g => .ok g
      | none => .error errNoIdL

/-- `extract_video_id` at `String` type. -/
def extract_video_id (url : String) : Except String String :=
  match extractL url.data with
  | .ok v => .ok ⟨v⟩
  | .error e => .error ⟨e⟩

/-! ### Transcript acquirer (`fetch_transcript_text`, app.py lines 39-56) -/

/-- The Python exception classes distinguished by `fetch_transcript_text`. -/
inductive PyExc where
  | transcriptsDisabled
  | noTranscriptFound
  | keyError
  | valueError
  | other
  deriving DecidableEq, Repr

/-- Whether the outer `except` clause (app.py line 55) catches `e`:
`(TranscriptsDisabled, NoTranscriptFound, KeyError, ValueError)`. -/
def caughtOuter : PyExc → Bool
  | .transcriptsDisabled => true
  | .noTranscriptFound => true
  | .keyError => true
  | .valueError => true
  | .other => false

/-- A transcript object: `fetch()` yields entries, each entry's `"text"`
key being present (`some`) or absent (`none`, a `KeyError` on access). -/
structure Transcript where
  fetch : Except PyExc (List (Option String))

/-- The object returned by `list_transcripts`, with the two lookup methods
the source calls (both with the preferred-language list `['en']`). -/
structure TranscriptList where
  findManual : Except PyExc Transcript
  findGenerated : Except PyExc Transcript

/-- Oracle for `YouTubeTranscriptApi` at a fixed video id. -/
structure TranscriptApi where
  listTranscripts : Except PyExc TranscriptList

/-- Acquisition steps named by the specification's fallback chain.  The
source only ever performs the first two. -/
inductive Step where
  | manual
  | generated
  | translated
  | audio
  deriving DecidableEq, Repr

/-- `entry["text"] for entry in entries`: the first entry without a
`"text"` key raises `KeyError`. -/
def getTexts : List (Option String) → Except PyExc (List String)
  | [] => .ok []
  | some t :: rest => (getTexts rest).map (fun l => t :: l)
  | none :: _ => .error .keyError

/-- `transcript.fetch()` and the join (app.py lines 53-54), under the outer
exception handler; `steps` records the lookups attempted so far. -/
def finishFetch (t : Transcript) (steps : List Step) :
    Except PyExc String × List Step :=
  match t.fetch with
  | .error e => if caughtOuter e then (.ok "", steps) else (.error e, steps)
  | .ok entries =>
    match getTexts entries with
    | .error e => if caughtOuter e then (.ok "", steps) else (.error e, steps)
    | .ok texts => (.ok (String.intercalate " " texts), steps)

/-- `fetch_transcript_text` (app.py lines 39-56).  The result is the
returned string (`.ok`, with `""` the Unavailable outcome) or an uncaught
exception (`.error`); the second component is the trace of acquisition
steps attempted. -/
def fetch_transcript_text (api : TranscriptApi) :
    Except PyExc String × List Step :=
  match api.listTranscripts with
  | .error e => if caughtOuter e then (.ok "", []) else (.error e, [])
  | .ok ts =>
    match ts.findManual with
    | .ok t => finishFetch t [Step.manual]
    | .error _ =>
      match ts.findGenerated with
      | .ok t => finishFetch t [Step.manual, Step.generated]
      | .error e =>
        if caughtOuter e then (.ok "", [Step.manual, Step.generated])
        else (.error e, [Step.manual, Step.generated])

/-! ### Notes generator (`call_openai`, app.py lines 73-98, and the prompt
built in `index`, lines 167-174) -/

/-- One block of `item.content` (its `type` attribute may be absent). -/
structure OutputBlock where
  type : Option String
  text : String

/-- One item of `response.output`: its `type`, its `text`, and its
`content` attribute when present. -/
structure OutputItem where
  type : String
  text : String
  content : Option (List OutputBlock)

/-- Oracle for the OpenAI client: the outcome of
`client.responses.create(...)` — a response output list, or an exception. -/
structure OpenAIEnv where
  create : Except PyExc (List OutputItem)

/-- The content-collection loop of `call_openai` (app.py lines 90-97). -/
def collectContents (items : List OutputItem) : List String :=
  items.foldr
    (fun item acc =>
      if item.type = "output_text" then item.text :: acc
      else
        match item.content with
        | some blocks =>
          (blocks.filterMap
            (fun b => if b.type = some "output_text" then some b.text else none)) ++ acc
        | none => acc)
    []

/-- `call_openai` (app.py lines 73-98): `apiKey` is
`os.environ.get("OPENAI_API_KEY")`; the Boolean records whether
`client.responses.create` was called.  `.error` carries the
`RuntimeError` message. -/
def call_openai (apiKey : Option String) (env : OpenAIEnv) :
    Except String String × Bool :=
  match apiKey with
  | none => (.error "OPENAI_API_KEY environment variable is not set.", false)
  | some k =>
    if k = "" then (.error "OPENAI_API_KEY environment variable is not set.", false)
    else
      match env.create with
      | .error _ => (.error "Failed to generate notes using OpenAI.", true)
      | .ok items => (.ok (pyStrip (String.intercalate "\n" (collectContents items))), true)

/-- The prompt built in `index` (app.py lines 167-174): a fixed header with
the transcript appended, with no truncation. -/
def promptHeader : String :=
  "You are an assistant that summarizes YouTube transcripts. Given the transcript below, write a concise response with the following exact sections:\nSummary: Provide 3-6 sentences summarizing the video.\nNotes: Provide 5-10 bullet points, each on a new line starting with \x27-\x27.\nKey takeaways: Provide 3-5 bullet points, each on a new line starting with \x27-\x27.\nTranscript:\n"

/-- The prompt submitted to the completion endpoint. -/
def notes_prompt (transcript_text : String) : String :=
  promptHeader ++ transcript_text

/-! ### Section parser (`parse_sections`, app.py lines 101-134) -/

/-- The section cursor values (`current` in the source). -/
inductive SectionTag where
  | summaryS
  | notesS
  | takeawaysS
  deriving DecidableEq, Repr

/-- Parser state: the three accumulated section lists and the cursor. -/
structure PState where
  summary : List String
  notes : List String
  takeaways : List String
  current : Option SectionTag
  deriving Repr

/-- The character set of `line.lstrip("-•*0123456789. ")` (app.py line 130). -/
def stripSet : List Char :=
  ['-', '•', '*', '0', '1', '2', '3', '4', '5', '6', '7', '8', '9', '.', ' ']

/-- `line.lstrip("-•*0123456789. ")`. -/
def lstripSet (l : List Char) : List Char :=
  l.dropWhile (fun c => stripSet.contains c)

/-- The loop body of `parse_sections` for one raw line
(app.py lines 105-131). -/
def processLine (st : PState) (raw : String) : PState :=
  let line := pyStrip raw
  if line = "" then st
  else
    let lowered := pyLower line
    if "summary".data.isPrefixOf lowered.data then
      match line.data.dropWhile (fun c => c != ':') with
      | [] => { st with current := some .summaryS }
      | _ :: after =>
        if pyStripList after = [] then { st with current := some .summaryS }
        else { st with current := some .summaryS,
                       summary := st.summary ++ [⟨pyStripList after⟩] }
    else if "notes".data.isPrefixOf lowered.data then
      { st with current := some .notesS }
    else if hasSub lowered.data "takeaway".data then
      { st with current := some .takeawaysS }
    else
      match st.current with
      | none => st
      | some .summaryS => { st with summary := st.summary ++ [line] }
      | some .notesS =>
        { st with notes := st.notes ++ [⟨pyStripList (lstripSet line.data)⟩] }
      | some .takeawaysS =>
        { st with takeaways := st.takeaways ++ [⟨pyStripList (lstripSet line.data)⟩] }

/-- `text.splitlines()`, modelled as splitting on `'\n'`; the source's
blank-line skip and per-line strip make the two agree on `\n`/`\r\n`
texts. -/
def splitLines (text : String) : List String :=
  (splitChar '\n' text.data).map (fun l => ⟨l⟩)

/-- `parse_sections` (app.py lines 101-134). -/
def parse_sections (text : String) : String × List String × List String :=
  let st := (splitLines text).foldl processLine ⟨[], [], [], none⟩
  (if st.summary = [] then "" else String.intercalate " " st.summary,
   st.notes, st.takeaways)

/-- Whether a raw line moves the section cursor (one of the three heading
tests of `parse_sections`, after the strip and blank-line skip). -/
def lineTriggers (raw : String) : Bool :=
  let line := pyStrip raw
  if line = "" then false
  else
    let lowered := pyLower line
    "summary".data.isPrefixOf lowered.data ||
    "notes".data.isPrefixOf lowered.data ||
    hasSub lowered.data "takeaway".data

/-- The summary slot rendered by `index` (app.py line 187):
`summary_text or ai_output`. -/
def displayed_summary (ai_output : String) : String :=
  if (parse_sections ai_output).1 = "" then ai_output else (parse_sections ai_output).1

/-- The generation phase of `index` (app.py lines 176-181): a raised
`RuntimeError` is caught and its message becomes the user-visible error
slot; otherwise the reply is parsed. -/
def index_generate (apiKey : Option String) (env : OpenAIEnv) :
    Except String (String × List String × List String) :=
  match (call_openai apiKey env).1 with
  | .error msg => .error msg
  | .ok out => .ok (displayed_summary out, (parse_sections out).2.1, (parse_sections out).2.2)

/-- A transcript API instance on which both the manual and the generated
lookup raise `NoTranscriptFound`. -/
def apiBothFail : TranscriptApi :=
  ⟨.ok ⟨.error .noTranscriptFound, .error .noTranscriptFound⟩⟩

/-- A transcript API instance whose manual transcript yields the two
segments of the specification's join example. -/
def apiHello : TranscriptApi :=
  ⟨.ok ⟨.ok ⟨.ok [some "Hello ", some " world"]⟩, .error .noTranscriptFound⟩⟩

/-! ### Helper lemmas -/

theorem takeWhile_append_all {p : Char → Bool} {l r : List Char}
    (h : ∀ c ∈ l, p c = true) :
    (l ++ r).takeWhile p = l ++ r.takeWhile p := by
  induction l with
  | nil => simp
  | cons a t ih =>
    have ha : p a = true := h a (by simp)
    simp [List.takeWhile_cons, ha, ih (fun c hc => h c (by simp [hc]))]

theorem takeWhile_all {p : Char → Bool} {l : List Char}
    (h : ∀ c ∈ l, p c = true) :
    l.takeWhile p = l := by
  have h2 := @takeWhile_append_all p l [] h
  simpa using h2

theorem dropWhile_append_all {p : Char → Bool} {l r : List Char}
    (h : ∀ c ∈ l, p c = true) :
    (l ++ r).dropWhile p = r.dropWhile p := by
  induction l with
  | nil => simp
  | cons a t ih =>
    have ha : p a = true := h a (by simp)
    simp [List.dropWhile_cons, ha, ih (fun c hc => h c (by simp [hc]))]

theorem dropWhile_all {p : Char → Bool} {l : List Char}
    (h : ∀ c ∈ l, p c = true) :
    l.dropWhile p = [] := by
  have h2 := @dropWhile_append_all p l [] h
  simpa using h2

theorem dropWhile_cons_false {p : Char → Bool} {c : Char} {l : List Char}
    (h : p c = false) :
    (c :: l).dropWhile p = c :: l := by
  simp [List.dropWhile_cons, h]

theorem forall_mem_append2 {P : Char → Prop} {l1 l2 : List Char}
    (h1 : ∀ c ∈ l1, P c) (h2 : ∀ c ∈ l2, P c) :
    ∀ c ∈ l1 ++ l2, P c := by
  intro c hc
  rcases List.mem_append.mp hc with h | h
  · exact h1 c h
  · exact h2 c h

theorem splitChar_cons_ne {c a : Char} {l : List Char} (ha : a ≠ c) :
    splitChar c (a :: l) = (a :: (splitChar c l).headD []) :: (splitChar c l).tail := by
  rw [splitChar]
  simp [ha]

theorem splitChar_cons_self (c : Char) (l : List Char) :
    splitChar c (c :: l) = [] :: splitChar c l := by
  rw [splitChar]
  simp

theorem splitChar_ne_nil (c : Char) (l : List Char) : splitChar c l ≠ [] := by
  cases l with
  | nil => simp [splitChar]
  | cons a t =>
    by_cases ha : a = c
    · subst ha; rw [splitChar_cons_self]; simp
    · rw [splitChar_cons_ne ha]; simp

theorem splitChar_no_sep {c : Char} {l : List Char} (h : ∀ x ∈ l, x ≠ c) :
    splitChar c l = [l] := by
  induction l with
  | nil => rfl
  | cons a t ih =>
    have ha : a ≠ c := h a (by simp)
    rw [splitChar_cons_ne ha, ih (fun x hx => h x (by simp [hx]))]
    rfl

theorem splitChar_append_sep {c : Char} {l r : List Char} (h : ∀ x ∈ l, x ≠ c) :
    splitChar c (l ++ c :: r) = l :: splitChar c r := by
  induction l with
  | nil => simpa using splitChar_cons_self c r
  | cons a t ih =>
    have ha : a ≠ c := h a (by simp)
    rw [List.cons_append, splitChar_cons_ne ha, ih (fun x hx => h x (by simp [hx]))]
    rfl

theorem isSpaceChar_eq_false {c : Char} (h : idChar c = true) :
    isSpaceChar c = false := by
  cases hx : isSpaceChar c
  · rfl
  · exfalso
    have hmem : c ∈ [' ', '\t', '\n', '\r', '\x0b', '\x0c'] := by
      simp only [isSpaceChar, Bool.or_eq_true, decide_eq_true_eq] at hx
      rcases hx with ⟨⟨⟨⟨h' | h'⟩ | h'⟩ | h'⟩ | h'⟩ | h' <;> simp [h']
    fin_cases hmem <;> exact absurd h (by decide)

theorem idChar_ne {c x : Char} (h : idChar c = true)
    (hx : x ∈ [':', '/', '?', '#', '&', '=']) : c ≠ x := by
  fin_cases hx <;> (intro hc; subst hc; exact absurd h (by decide))

theorem pyStripList_eq_of_pad (ws1 m ws2 : List Char)
    (h1 : ∀ c ∈ ws1, isSpaceChar c = true)
    (h2 : ∀ c ∈ ws2, isSpaceChar c = true)
    (hh : ∀ c, m.head? = some c → isSpaceChar c = false)
    (hl : ∀ c, m.getLast? = some c → isSpaceChar c = false)
    (hm : m ≠ []) :
    pyStripList (ws1 ++ m ++ ws2) = m := by
  unfold pyStripList
  rw [List.append_assoc, dropWhile_append_all h1]
  cases m with
  | nil => exact absurd rfl hm
  | cons a t =>
    rw [List.cons_append, dropWhile_cons_false (hh a rfl), ← List.cons_append,
      List.reverse_append,
      dropWhile_append_all (fun c hc => h2 c (List.mem_reverse.mp hc))]
    cases hrev : (a :: t).reverse with
    | nil =>
      have hlen := congrArg List.length hrev
      simp at hlen
    | cons b s =>
      have hb : (a :: t).getLast? = some b := by
        rw [← List.head?_reverse, hrev]; rfl
      rw [dropWhile_cons_false (hl b hb), ← hrev, List.reverse_reverse]

theorem pyStripList_eq_self {m : List Char}
    (hh : ∀ c, m.head? = some c → isSpaceChar c = false)
    (hl : ∀ c, m.getLast? = some c → isSpaceChar c = false)
    (hm : m ≠ []) :
    pyStripList m = m := by
  have hp := pyStripList_eq_of_pad [] m [] (by simp) (by simp) hh hl hm
  simpa using hp

theorem getTexts_map_some (ts : List String) : getTexts (ts.map some) = .ok ts := by
  induction ts with
  | nil => rfl
  | cons a t ih => simp [getTexts, ih, Except.map]

theorem processLine_skip {st : PState} {raw : String}
    (ht : lineTriggers raw = false) (hcur : st.current = none) :
    processLine st raw = st := by
  unfold lineTriggers at ht
  unfold processLine
  by_cases h0 : pyStrip raw = ""
  · simp [h0]
  · rw [if_neg h0] at ht
    rw [Bool.or_eq_false_iff, Bool.or_eq_false_iff] at ht
    obtain ⟨⟨hta, htb⟩, htc⟩ := ht
    simp [h0, hta, htb, htc, hcur]

theorem foldl_processLine_init {lines : List String}
    (h : ∀ raw ∈ lines, lineTriggers raw = false) :
    lines.foldl processLine ⟨[], [], [], none⟩ = ⟨[], [], [], none⟩ := by
  induction lines with
  | nil => rfl
  | cons a t ih =>
    rw [List.foldl_cons, processLine_skip (h a (by simp)) rfl]
    exact ih (fun raw hr => h raw (by simp [hr]))

/-! ### Helper lemmas for the URL resolver -/

theorem ne_nil_of_head?_some {l : List Char} {c : Char} (h : l.head? = some c) :
    l ≠ [] := by
  intro h0
  rw [h0] at h
  exact Option.noConfusion h

theorem mem_of_getLast?_some {l : List Char} {c : Char} (h : l.getLast? = some c) :
    c ∈ l := by
  rw [← List.head?_reverse] at h
  have hmem : c ∈ l.reverse := by
    cases hl : l.reverse with
    | nil => rw [hl] at h; exact Option.noConfusion h
    | cons a t =>
      rw [hl] at h
      have := Option.some.inj h
      subst this
      simp
  exact List.mem_reverse.mp hmem

theorem idChar_notPathEnd {c : Char} (h : idChar c = true) : notPathEnd c = true := by
  have h1 : c ≠ '?' := idChar_ne h (by simp)
  have h2 : c ≠ '#' := idChar_ne h (by simp)
  simp [notPathEnd, h1, h2]

theorem idChar_ne_bool {c x : Char} (h : idChar c = true)
    (hx : x ∈ [':', '/', '?', '#', '&', '=']) : (c != x) = true := by
  simpa [bne_iff_ne] using idChar_ne h hx

theorem classTake_valid {l g : List Char} (h : classTake l = some g) :
    fullmatch11 g = true := by
  unfold classTake at h
  by_cases hf : fullmatch11 (l.take 11) = true
  · rw [if_pos hf] at h
    exact (Option.some.inj h) ▸ hf
  · rw [if_neg hf] at h
    exact absurd h (by simp)

theorem ite_classTake_valid {b : Prop} [Decidable b] {x g : List Char}
    (h : (if b then classTake x else none) = some g) : fullmatch11 g = true := by
  by_cases hb : b
  · rw [if_pos hb] at h
    exact classTake_valid h
  · rw [if_neg hb] at h
    exact absurd h (by simp)

theorem orElse_valid {P : List Char → Prop} {a b : Option (List Char)}
    (ha : ∀ g, a = some g → P g) (hb : ∀ g, b = some g → P g) :
    ∀ g, (a <|> b) = some g → P g := by
  intro g h
  cases a with
  | none =>
    rw [Option.none_orElse] at h
    exact hb g h
  | some x =>
    rw [Option.some_orElse] at h
    have := Option.some.inj h
    subst this
    exact ha x rfl

theorem matchAlt_valid {l g : List Char} (h : matchAlt l = some g) :
    fullmatch11 g = true := by
  unfold matchAlt at h
  refine orElse_valid (fun g h => ite_classTake_valid h)
    (fun g h => orElse_valid (fun g h => ite_classTake_valid h)
      (fun g h => orElse_valid (fun g h => ite_classTake_valid h)
        (fun g h => ite_classTake_valid h) g h) g h) g h

theorem regexSearch_valid {l : List Char} :
    ∀ {g : List Char}, regexSearch l = some g → fullmatch11 g = true := by
  induction l with
  | nil => intro g h; exact absurd h (by simp [regexSearch])
  | cons c rest ih =>
    intro g h
    unfold regexSearch at h
    cases hm : matchAlt (c :: rest) with
    | some g' =>
      rw [hm] at h
      dsimp only at h
      have := Option.some.inj h
      subst this
      exact matchAlt_valid hm
    | none =>
      rw [hm] at h
      dsimp only at h
      exact ih h

/-- Facts extracted from a successful `fullmatch11` check. -/
theorem fullmatch11_facts {l : List Char} (h : fullmatch11 l = true) :
    l.length = 11 ∧ ∀ c ∈ l, idChar c = true := by
  unfold fullmatch11 at h
  rw [Bool.and_eq_true] at h
  obtain ⟨h1, h2⟩ := h
  exact ⟨by simpa using h1, List.all_eq_true.mp h2⟩

theorem extractL_youtube_be {url p : List Char}
    (hne : ¬(url = []))
    (hhost : (urlparse (pyStripList url)).hostname = some "youtu.be".data)
    (hpath : (urlparse (pyStripList url)).path = p)
    (hp : ¬(p = [])) :
    extractL url = .ok (p.dropWhile (fun c => c = '/')) := by
  unfold extractL
  rw [if_neg hne]
  simp [hhost, hpath, hp]

theorem extractL_watch {url v : List Char}
    (hne : ¬(url = []))
    (hhost : (urlparse (pyStripList url)).hostname = some "www.youtube.com".data)
    (hpre : "/watch".data.isPrefixOf (urlparse (pyStripList url)).path = true)
    (hv : qsFirst (urlparse (pyStripList url)).query "v".data = some v) :
    extractL url = .ok v := by
  unfold extractL
  rw [if_neg hne]
  simp [hhost, hpre, hv,
    show hasSub "www.youtube.com".data "youtube".data = true from by decide]

theorem extractL_pathscan {url g : List Char}
    (hne : ¬(url = []))
    (hhost : (urlparse (pyStripList url)).hostname = some "www.youtube.com".data)
    (hpre : "/watch".data.isPrefixOf (urlparse (pyStripList url)).path = false)
    (hfind : (splitChar '/' (urlparse (pyStripList url)).path).find?
      (fun part => fullmatch11 part) = some g) :
    extractL url = .ok g := by
  unfold extractL
  rw [if_neg hne]
  simp [hhost, hpre, hfind,
    show hasSub "www.youtube.com".data "youtube".data = true from by decide]

/-! ### Claim C1: the fallback chain after both transcript lookups fail -/

/-- Claim C1 is false on this code: when both the manually created and the
auto-generated transcript lookups fail, `fetch_transcript_text` returns the
Unavailable outcome (the empty string) immediately after the two lookup
attempts; no translated-transcript step and no audio step appear in the
attempted-step trace. -/
theorem C1_counterexample :
    fetch_transcript_text apiBothFail = (.ok "", [Step.manual, Step.generated]) ∧
    Step.translated ∉ (fetch_transcript_text apiBothFail).2 ∧
    Step.audio ∉ (fetch_transcript_text apiBothFail).2 :=
  ⟨rfl, by decide, by decide⟩

/-- Amended C1: whenever the transcript listing succeeds, the manual lookup
raises, and the generated lookup raises one of the caught exception types,
the acquirer returns the Unavailable outcome (empty string) directly after
the two lookup attempts; no translated or audio fallback step exists in
this code, so no temporary audio file is ever created. -/
theorem C1_amended (api : TranscriptApi) (ts : TranscriptList) (em eg : PyExc)
    (h1 : api.listTranscripts = .ok ts)
    (h2 : ts.findManual = .error em)
    (h3 : ts.findGenerated = .error eg)
    (h4 : caughtOuter eg = true) :
    fetch_transcript_text api = (.ok "", [Step.manual, Step.generated]) := by
  unfold fetch_transcript_text
  rw [h1]
  dsimp only
  rw [h2]
  dsimp only
  rw [h3]
  dsimp only
  rw [h4]
  simp

/-- Witness for the amended C1 at a concrete transcript API. -/
theorem C1_amended_witness :
    fetch_transcript_text apiBothFail = (.ok "", [Step.manual, Step.generated]) :=
  C1_amended apiBothFail ⟨.error .noTranscriptFound, .error .noTranscriptFound⟩
    .noTranscriptFound .noTranscriptFound rfl rfl rfl rfl

/-! ### Claim C3: segment concatenation -/

/-- Claim C3 is false on this code: the source joins the segment texts with
a single separating space but neither drops whitespace-only segments nor
strips the result, so the specification's example yields
`"Hello   world"`, not `"Hello world"`. -/
theorem C3_counterexample :
    (fetch_transcript_text apiHello).1 = .ok "Hello   world" ∧
    ("Hello   world" : String) ≠ "Hello world" :=
  ⟨rfl, by decide⟩

/-- Amended C3: acquisition joins the fetched segment texts with a single
space separator between consecutive segments, keeping empty or
whitespace-only segments and applying no final strip; on the example
segments `["Hello ", " world"]` this yields `"Hello   world"`. -/
theorem C3_amended :
    (∀ (api : TranscriptApi) (ts : TranscriptList) (t : Transcript)
        (texts : List String),
      api.listTranscripts = .ok ts →
      ts.findManual = .ok t →
      t.fetch = .ok (texts.map some) →
      (fetch_transcript_text api).1 = .ok (String.intercalate " " texts)) ∧
    String.intercalate " " ["Hello ", " world"] = "Hello   world" := by
  constructor
  · intro api ts t texts h1 h2 h3
    unfold fetch_transcript_text
    rw [h1]
    dsimp only
    rw [h2]
    dsimp only
    unfold finishFetch
    rw [h3]
    dsimp only
    rw [getTexts_map_some]
  · rfl

/-- Witness for the amended C3 at the concrete example API. -/
theorem C3_amended_witness :
    (fetch_transcript_text apiHello).1 = .ok (String.intercalate " " ["Hello ", " world"]) :=
  C3_amended.1 apiHello ⟨.ok ⟨.ok [some "Hello ", some " world"]⟩, .error .noTranscriptFound⟩
    ⟨.ok [some "Hello ", some " world"]⟩ ["Hello ", " world"] rfl rfl rfl

/-! ### Claim C5: transcript truncation before prompt submission -/

/-- Claim C5 is false on this code: the prompt built in `index` contains
the whole transcript; for a transcript of 8001 characters the prompt's
length exceeds the fixed header plus the claimed 8000-character budget. -/
theorem C5_counterexample :
    (notes_prompt (String.mk (List.replicate 8001 'a'))).length =
      promptHeader.length + 8001 ∧ 8000 < 8001 := by
  constructor
  · have h1 : (String.mk (List.replicate 8001 'a')).length = 8001 := by
      show (List.replicate 8001 'a').length = 8001
      exact List.length_replicate 8001 'a'
    show (promptHeader ++ _).length = _
    rw [String.length_append, h1]
  · decide

/-- Amended C5: no truncation happens; the prompt is the fixed header with
the entire transcript appended, so the whole transcript text is a suffix of
the submitted prompt. -/
theorem C5_amended (t : String) :
    (notes_prompt t).data = promptHeader.data ++ t.data ∧
    t.data <:+ (notes_prompt t).data :=
  ⟨String.data_append promptHeader t,
   ⟨promptHeader.data, (String.data_append promptHeader t).symm⟩⟩

/-! ### Claim C6: parsing the specification's example reply -/

/-- Parsing the reply of the specification's example yields summary
`"A. B."`, notes `["x", "y"]`, takeaways `["z"]`; a preamble line before
the first recognized heading is discarded without changing the result. -/
theorem C6_parse_example :
    parse_sections "Summary: A. B.\nNotes\n- x\n- y\nKey takeaways\n- z" =
      ("A. B.", ["x", "y"], ["z"]) ∧
    parse_sections "preamble junk\nSummary: A. B.\nNotes\n- x\n- y\nKey takeaways\n- z" =
      ("A. B.", ["x", "y"], ["z"]) :=
  ⟨rfl, rfl⟩

/-! ### Claim C7: missing credential short-circuits generation -/

/-- When `OPENAI_API_KEY` is absent from the environment, `call_openai`
returns the configuration `RuntimeError` without calling the completion
endpoint (the Boolean network flag is `false`), and `index` surfaces the
message as the user-visible error slot rather than crashing. -/
theorem C7_missing_key (env : OpenAIEnv) :
    call_openai none env =
      (.error "OPENAI_API_KEY environment variable is not set.", false) ∧
    index_generate none env =
      .error "OPENAI_API_KEY environment variable is not set." :=
  ⟨rfl, rfl⟩

/-! ### Claim C8: replies with no recognized heading -/

/-- When no line of the reply triggers a section heading, `parse_sections`
returns empty sections and `index` surfaces the whole raw reply as the
displayed summary text. -/
theorem C8_no_headings (text : String)
    (h : ∀ raw ∈ splitLines text, lineTriggers raw = false) :
    parse_sections text = ("", [], []) ∧ displayed_summary text = text := by
  have hf := foldl_processLine_init h
  have hp : parse_sections text = ("", [], []) := by
    unfold parse_sections
    rw [hf]
    rfl
  refine ⟨hp, ?_⟩
  unfold displayed_summary
  rw [hp]
  rfl

/-- Witness for C8 at a concrete heading-free reply. -/
theorem C8_no_headings_witness :
    parse_sections "hello\nworld" = ("", [], []) ∧
    displayed_summary "hello\nworld" = "hello\nworld" :=
  C8_no_headings "hello\nworld" (by decide)

/-! ### Claim C9: malformed URLs and wrong hosts -/

/-- Claim C9 is false on this code: the final regex fallback of
`extract_video_id` ignores the host, so a URL on the non-YouTube host
`evil.com` still resolves to an identifier. -/
theorem C9_counterexample :
    (urlparse (pyStripList "https://evil.com/embed/abcdefghijk".data)).hostname =
      some "evil.com".data ∧
    hasSub "evil.com".data "youtube".data = false ∧
    extract_video_id "https://evil.com/embed/abcdefghijk" = .ok "abcdefghijk" :=
  ⟨rfl, by decide, rfl⟩

/-- Amended C9: URLs carrying no extractable identifier fail with the
`InvalidUrl` `ValueError`, but the wrong-host half of the claim fails:
the regex fallback ignores the host, so a non-YouTube-host URL embedding
`embed/` followed by an 11-character identifier resolves to it. -/
theorem C9_amended :
    extract_video_id "https://example.com/page" =
      .error "Could not extract a video ID from the provided URL." ∧
    extract_video_id "https://www.youtube.com/watch" =
      .error "Could not extract a video ID from the provided URL." ∧
    extract_video_id "https://evil.com/embed/abcdefghijk" = .ok "abcdefghijk" :=
  ⟨rfl, rfl, rfl⟩

/-! ### Claim C10: bullet-marker stripping invariant -/

/-- Claim C10 is false on this code: stored entries can begin with a
marker character.  The line `"-\t- x"` under `Notes` is stored as
`"- x"`, which begins with `'-'`, a member of the stripped set: the
`lstrip` stops at the tab, and the subsequent whitespace `strip` exposes a
fresh `'-'`. -/
theorem C10_counterexample :
    (parse_sections "Notes\n-\t- x").2.1 = ["- x"] ∧
    ("- x").data.head? = some '-' ∧
    '-' ∈ stripSet :=
  ⟨rfl, rfl, by decide⟩

/-- Amended C10: a non-heading line accumulated under `Notes` is stored as
`line.lstrip("-•*0123456789. ").strip()` — the maximal leading run of
marker characters is removed and the remainder trimmed of surrounding
whitespace (so leading digits belonging to the content, such as a year,
are lost); the entry can still begin with a marker character when
whitespace interrupts the leading run. -/
theorem C10_amended :
    (∀ (st : PState) (raw : String),
      lineTriggers raw = false →
      pyStrip raw ≠ "" →
      st.current = some SectionTag.notesS →
      processLine st raw =
        { st with notes := st.notes ++ [⟨pyStripList (lstripSet (pyStrip raw).data)⟩] }) ∧
    (parse_sections "Notes\n- 2019 saw growth").2.1 = ["saw growth"] := by
  constructor
  · intro st raw ht h0 hcur
    unfold lineTriggers at ht
    unfold processLine
    rw [if_neg h0] at ht
    rw [Bool.or_eq_false_iff, Bool.or_eq_false_iff] at ht
    obtain ⟨⟨hta, htb⟩, htc⟩ := ht
    simp [h0, hta, htb, htc, hcur]
  · rfl

/-- Witness for the amended C10 at a concrete state and line. -/
theorem C10_amended_witness :
    processLine ⟨[], [], [], some SectionTag.notesS⟩ "- alpha" =
      ⟨[], ["alpha"], [], some SectionTag.notesS⟩ :=
  (C10_amended.1 ⟨[], [], [], some SectionTag.notesS⟩ "- alpha"
    (by decide) (by decide) rfl).trans rfl


/-! ### Claim C2: supported URL shapes -/

theorem extract_ok_of {u : String} {v : List Char}
    (h : extractL u.data = .ok v) : extract_video_id u = .ok ⟨v⟩ := by
  unfold extract_video_id
  rw [h]

/-- Claim C2 is false on this code: for a `youtu.be` URL with trailing
path noise after the identifier, resolution returns the identifier with
the trailing path segment attached, not the bare identifier. -/
theorem C2_counterexample :
    extract_video_id "https://youtu.be/dQw4w9WgXcQ/extra?t=1" =
      .ok "dQw4w9WgXcQ/extra" ∧
    ("dQw4w9WgXcQ/extra" : String) ≠ "dQw4w9WgXcQ" :=
  ⟨rfl, by decide⟩

/-- Amended C2: for every 11-character identifier, the four URL shapes
resolve to exactly the identifier, with surrounding whitespace tolerated
and trailing query noise tolerated everywhere, and trailing path noise
tolerated for `watch`/`shorts`/`embed`; but for `youtu.be` a trailing path
segment is kept: `https://youtu.be/<id>/extra?t=1` resolves to
`<id>/extra`. -/
theorem C2_amended (id : String) (h : fullmatch11 id.data = true) :
    extract_video_id ("https://www.youtube.com/watch?v=" ++ id ++ "&t=1") = .ok id ∧
    extract_video_id ("https://youtu.be/" ++ id) = .ok id ∧
    extract_video_id ("https://www.youtube.com/shorts/" ++ id ++ "/extra?t=1") = .ok id ∧
    extract_video_id ("https://www.youtube.com/embed/" ++ id) = .ok id ∧
    extract_video_id ("  https://youtu.be/" ++ id ++ "  ") = .ok id ∧
    extract_video_id ("https://youtu.be/" ++ id ++ "/extra?t=1") = .ok (id ++ "/extra") := by
  obtain ⟨hlen, hall⟩ := fullmatch11_facts h
  have hne : id.data ≠ [] := by
    intro h0
    rw [h0] at hlen
    exact absurd hlen (by decide)
  obtain ⟨c0, t0, hid⟩ : ∃ c0 t0, id.data = c0 :: t0 := by
    cases hd : id.data with
    | nil => exact absurd hd hne
    | cons a t => exact ⟨a, t, rfl⟩
  have hc0mem : c0 ∈ id.data := by rw [hid]; simp
  have hNoSpace : ∀ c ∈ id.data, isSpaceChar c = false :=
    fun c hc => isSpaceChar_eq_false (hall c hc)
  have hNoSlash : ∀ c ∈ id.data, c ≠ '/' := fun c hc => idChar_ne (hall c hc) (by simp)
  have hNoAmp : ∀ c ∈ id.data, c ≠ '&' := fun c hc => idChar_ne (hall c hc) (by simp)
  have hNPE : ∀ c ∈ id.data, notPathEnd c = true :=
    fun c hc => idChar_notPathEnd (hall c hc)
  have hNoHash : ∀ c ∈ id.data, (c != '#') = true :=
    fun c hc => idChar_ne_bool (hall c hc) (by simp)
  have hlast : ∀ c, id.data.getLast? = some c → isSpaceChar c = false :=
    fun c hc => hNoSpace c (mem_of_getLast?_some hc)
  have hdropSlash : (('/' :: id.data).dropWhile (fun c => c = '/')) = id.data := by
    rw [List.dropWhile_cons, if_pos (by rfl)]
    rw [hid, dropWhile_cons_false (decide_eq_false (hNoSlash c0 hc0mem))]
  refine ⟨?_, ?_, ?_, ?_, ?_, ?_⟩
  · -- watch shape with query noise
    have hdata : ("https://www.youtube.com/watch?v=" ++ id ++ "&t=1").data =
        "https://www.youtube.com/watch?v=".data ++ (id.data ++ "&t=1".data) := by
      rw [String.data_append, String.data_append, List.append_assoc]
    have hune : "https://www.youtube.com/watch?v=".data ++ (id.data ++ "&t=1".data) ≠ [] :=
      ne_nil_of_head?_some (show _ = some 'h' from rfl)
    have hstrip : pyStripList
        ("https://www.youtube.com/watch?v=".data ++ (id.data ++ "&t=1".data)) =
        "https://www.youtube.com/watch?v=".data ++ (id.data ++ "&t=1".data) := by
      apply pyStripList_eq_self
      · intro c hc
        have hc' := Option.some.inj (show (some 'h' : Option Char) = some c from hc)
        rw [← hc']
        rfl
      · intro c hc
        rw [List.getLast?_append_of_ne_nil _ (by simp),
          List.getLast?_append_of_ne_nil _ (by decide)] at hc
        have hc' := Option.some.inj (show (some '1' : Option Char) = some c from hc)
        rw [← hc']
        rfl
      · exact hune
    have hhost : (urlparse (pyStripList
        ("https://www.youtube.com/watch?v=".data ++ (id.data ++ "&t=1".data)))).hostname =
        some "www.youtube.com".data := by
      rw [hstrip]
      rfl
    have hpre : "/watch".data.isPrefixOf (urlparse (pyStripList
        ("https://www.youtube.com/watch?v=".data ++ (id.data ++ "&t=1".data)))).path = true := by
      rw [hstrip]
      rfl
    have hq1 : ("/watch?v=".data ++ (id.data ++ "&t=1".data)).takeWhile
        (fun c => c != '#') = "/watch?v=".data ++ (id.data ++ "&t=1".data) :=
      takeWhile_all (forall_mem_append2 (by decide)
        (forall_mem_append2 hNoHash (by decide)))
    have hquery : (urlparse (pyStripList
        ("https://www.youtube.com/watch?v=".data ++ (id.data ++ "&t=1".data)))).query =
        ("v=".data ++ id.data) ++ ('&' :: "t=1".data) := by
      rw [hstrip]
      show queryOf ("/watch?v=".data ++ (id.data ++ "&t=1".data)) = _
      unfold queryOf
      rw [hq1]
      rfl
    have hpair : qsPair? ("v=".data ++ id.data) = some ("v".data, id.data) := by
      unfold qsPair?
      rw [show ("v=".data ++ id.data).dropWhile (fun c => c != '=') = '=' :: id.data
        from rfl]
      dsimp only
      rw [if_neg hne]
      rfl
    have hsplit : splitChar '&' (("v=".data ++ id.data) ++ ('&' :: "t=1".data)) =
        ("v=".data ++ id.data) :: splitChar '&' "t=1".data :=
      splitChar_append_sep (forall_mem_append2 (by decide) hNoAmp)
    have hvq : qsFirst (("v=".data ++ id.data) ++ ('&' :: "t=1".data)) "v".data =
        some id.data := by
      unfold qsFirst parseQsPairs
      rw [hsplit, List.filterMap_cons, hpair]
      dsimp only
      rw [List.findSome?_cons]
      simp
    have hex : extractL
        ("https://www.youtube.com/watch?v=".data ++ (id.data ++ "&t=1".data)) =
        .ok id.data :=
      extractL_watch hune hhost hpre (by rw [hquery]; exact hvq)
    exact extract_ok_of (by rw [hdata]; exact hex)
  · -- plain youtu.be shape
    have hdata : ("https://youtu.be/" ++ id).data =
        "https://youtu.be/".data ++ id.data := String.data_append _ _
    have hune : "https://youtu.be/".data ++ id.data ≠ [] :=
      ne_nil_of_head?_some (show _ = some 'h' from rfl)
    have hstrip : pyStripList ("https://youtu.be/".data ++ id.data) =
        "https://youtu.be/".data ++ id.data := by
      apply pyStripList_eq_self
      · intro c hc
        have hc' := Option.some.inj (show (some 'h' : Option Char) = some c from hc)
        rw [← hc']
        rfl
      · intro c hc
        rw [List.getLast?_append_of_ne_nil _ hne] at hc
        exact hlast c hc
      · exact hune
    have hhost : (urlparse (pyStripList ("https://youtu.be/".data ++ id.data))).hostname =
        some "youtu.be".data := by
      rw [hstrip]
      rfl
    have hpath : (urlparse (pyStripList ("https://youtu.be/".data ++ id.data))).path =
        '/' :: id.data := by
      rw [hstrip]
      show ('/' :: id.data).takeWhile notPathEnd = '/' :: id.data
      rw [List.takeWhile_cons, if_pos (by rfl), takeWhile_all hNPE]
    have hex : extractL ("https://youtu.be/".data ++ id.data) = .ok id.data := by
      have h0 := extractL_youtube_be hune hhost hpath (by simp)
      rw [hdropSlash] at h0
      exact h0
    exact extract_ok_of (by rw [hdata]; exact hex)
  · -- shorts shape with trailing path and query noise
    have hdata : ("https://www.youtube.com/shorts/" ++ id ++ "/extra?t=1").data =
        "https://www.youtube.com/shorts/".data ++ (id.data ++ "/extra?t=1".data) := by
      rw [String.data_append, String.data_append, List.append_assoc]
    have hune : "https://www.youtube.com/shorts/".data ++ (id.data ++ "/extra?t=1".data) ≠ [] :=
      ne_nil_of_head?_some (show _ = some 'h' from rfl)
    have hstrip : pyStripList
        ("https://www.youtube.com/shorts/".data ++ (id.data ++ "/extra?t=1".data)) =
        "https://www.youtube.com/shorts/".data ++ (id.data ++ "/extra?t=1".data) := by
      apply pyStripList_eq_self
      · intro c hc
        have hc' := Option.some.inj (show (some 'h' : Option Char) = some c from hc)
        rw [← hc']
        rfl
      · intro c hc
        rw [List.getLast?_append_of_ne_nil _ (by simp),
          List.getLast?_append_of_ne_nil _ (by decide)] at hc
        have hc' := Option.some.inj (show (some '1' : Option Char) = some c from hc)
        rw [← hc']
        rfl
      · exact hune
    have hhost : (urlparse (pyStripList
        ("https://www.youtube.com/shorts/".data ++ (id.data ++ "/extra?t=1".data)))).hostname =
        some "www.youtube.com".data := by
      rw [hstrip]
      rfl
    have hpath : (urlparse (pyStripList
        ("https://www.youtube.com/shorts/".data ++ (id.data ++ "/extra?t=1".data)))).path =
        "/shorts/".data ++ (id.data ++ "/extra".data) := by
      rw [hstrip]
      show ("/shorts/".data ++ (id.data ++ "/extra?t=1".data)).takeWhile notPathEnd = _
      rw [takeWhile_append_all (by decide), takeWhile_append_all hNPE]
      rfl
    have hpre : "/watch".data.isPrefixOf (urlparse (pyStripList
        ("https://www.youtube.com/shorts/".data ++ (id.data ++ "/extra?t=1".data)))).path =
        false := by
      rw [hpath]
      rfl
    have hsh : splitChar '/' ("/shorts/".data ++ (id.data ++ "/extra".data)) =
        [] :: "shorts".data :: id.data :: ["extra".data] := by
      show splitChar '/'
        ('/' :: ("shorts".data ++ ('/' :: (id.data ++ ('/' :: "extra".data))))) = _
      rw [splitChar_cons_self, splitChar_append_sep (by decide),
        splitChar_append_sep hNoSlash, splitChar_no_sep (by decide)]
    have hfind : (splitChar '/' (urlparse (pyStripList
        ("https://www.youtube.com/shorts/".data ++ (id.data ++ "/extra?t=1".data)))).path).find?
        (fun part => fullmatch11 part) = some id.data := by
      rw [hpath, hsh]
      rw [List.find?_cons_of_neg _ (by decide), List.find?_cons_of_neg _ (by decide),
        List.find?_cons_of_pos _ h]
    have hex : extractL
        ("https://www.youtube.com/shorts/".data ++ (id.data ++ "/extra?t=1".data)) =
        .ok id.data :=
      extractL_pathscan hune hhost hpre hfind
    exact extract_ok_of (by rw [hdata]; exact hex)
  · -- embed shape
    have hdata : ("https://www.youtube.com/embed/" ++ id).data =
        "https://www.youtube.com/embed/".data ++ id.data := String.data_append _ _
    have hune : "https://www.youtube.com/embed/".data ++ id.data ≠ [] :=
      ne_nil_of_head?_some (show _ = some 'h' from rfl)
    have hstrip : pyStripList ("https://www.youtube.com/embed/".data ++ id.data) =
        "https://www.youtube.com/embed/".data ++ id.data := by
      apply pyStripList_eq_self
      · intro c hc
        have hc' := Option.some.inj (show (some 'h' : Option Char) = some c from hc)
        rw [← hc']
        rfl
      · intro c hc
        rw [List.getLast?_append_of_ne_nil _ hne] at hc
        exact hlast c hc
      · exact hune
    have hhost : (urlparse (pyStripList
        ("https://www.youtube.com/embed/".data ++ id.data))).hostname =
        some "www.youtube.com".data := by
      rw [hstrip]
      rfl
    have hpath : (urlparse (pyStripList
        ("https://www.youtube.com/embed/".data ++ id.data))).path =
        "/embed/".data ++ id.data := by
      rw [hstrip]
      show ("/embed/".data ++ id.data).takeWhile notPathEnd = _
      rw [takeWhile_append_all (by decide), takeWhile_all hNPE]
    have hpre : "/watch".data.isPrefixOf (urlparse (pyStripList
        ("https://www.youtube.com/embed/".data ++ id.data))).path = false := by
      rw [hpath]
      rfl
    have hsh : splitChar '/' ("/embed/".data ++ id.data) =
        [] :: "embed".data :: [id.data] := by
      show splitChar '/' ('/' :: ("embed".data ++ ('/' :: id.data))) = _
      rw [splitChar_cons_self, splitChar_append_sep (by decide),
        splitChar_no_sep hNoSlash]
    have hfind : (splitChar '/' (urlparse (pyStripList
        ("https://www.youtube.com/embed/".data ++ id.data))).path).find?
        (fun part => fullmatch11 part) = some id.data := by
      rw [hpath, hsh]
      rw [List.find?_cons_of_neg _ (by decide), List.find?_cons_of_neg _ (by decide),
        List.find?_cons_of_pos _ h]
    have hex : extractL ("https://www.youtube.com/embed/".data ++ id.data) =
        .ok id.data :=
      extractL_pathscan hune hhost hpre hfind
    exact extract_ok_of (by rw [hdata]; exact hex)
  · -- whitespace-padded youtu.be shape
    have hdata : ("  https://youtu.be/" ++ id ++ "  ").data =
        "  https://youtu.be/".data ++ (id.data ++ "  ".data) := by
      rw [String.data_append, String.data_append, List.append_assoc]
    have hune : "  https://youtu.be/".data ++ (id.data ++ "  ".data) ≠ [] :=
      ne_nil_of_head?_some (show _ = some ' ' from rfl)
    have hstrip : pyStripList ("  https://youtu.be/".data ++ (id.data ++ "  ".data)) =
        "https://youtu.be/".data ++ id.data := by
      have hp := pyStripList_eq_of_pad [' ', ' ']
        ("https://youtu.be/".data ++ id.data) [' ', ' ']
        (by decide) (by decide)
        (fun c hc => by
          have hc' := Option.some.inj (show (some 'h' : Option Char) = some c from hc)
          rw [← hc']
          rfl)
        (fun c hc => by
          rw [List.getLast?_append_of_ne_nil _ hne] at hc
          exact hlast c hc)
        (ne_nil_of_head?_some (show _ = some 'h' from rfl))
      exact hp
    have hhost : (urlparse (pyStripList
        ("  https://youtu.be/".data ++ (id.data ++ "  ".data)))).hostname =
        some "youtu.be".data := by
      rw [hstrip]
      rfl
    have hpath : (urlparse (pyStripList
        ("  https://youtu.be/".data ++ (id.data ++ "  ".data)))).path =
        '/' :: id.data := by
      rw [hstrip]
      show ('/' :: id.data).takeWhile notPathEnd = '/' :: id.data
      rw [List.takeWhile_cons, if_pos (by rfl), takeWhile_all hNPE]
    have hex : extractL ("  https://youtu.be/".data ++ (id.data ++ "  ".data)) =
        .ok id.data := by
      have h0 := extractL_youtube_be hune hhost hpath (by simp)
      rw [hdropSlash] at h0
      exact h0
    exact extract_ok_of (by rw [hdata]; exact hex)
  · -- youtu.be with trailing path noise: identifier plus "/extra" is kept
    have hdata : ("https://youtu.be/" ++ id ++ "/extra?t=1").data =
        "https://youtu.be/".data ++ (id.data ++ "/extra?t=1".data) := by
      rw [String.data_append, String.data_append, List.append_assoc]
    have hune : "https://youtu.be/".data ++ (id.data ++ "/extra?t=1".data) ≠ [] :=
      ne_nil_of_head?_some (show _ = some 'h' from rfl)
    have hstrip : pyStripList
        ("https://youtu.be/".data ++ (id.data ++ "/extra?t=1".data)) =
        "https://youtu.be/".data ++ (id.data ++ "/extra?t=1".data) := by
      apply pyStripList_eq_self
      · intro c hc
        have hc' := Option.some.inj (show (some 'h' : Option Char) = some c from hc)
        rw [← hc']
        rfl
      · intro c hc
        rw [List.getLast?_append_of_ne_nil _ (by simp),
          List.getLast?_append_of_ne_nil _ (by decide)] at hc
        have hc' := Option.some.inj (show (some '1' : Option Char) = some c from hc)
        rw [← hc']
        rfl
      · exact hune
    have hhost : (urlparse (pyStripList
        ("https://youtu.be/".data ++ (id.data ++ "/extra?t=1".data)))).hostname =
        some "youtu.be".data := by
      rw [hstrip]
      rfl
    have hsl : ∀ c ∈ '/' :: id.data, notPathEnd c = true := by
      intro c hc
      rcases List.mem_cons.mp hc with rfl | hc
      · rfl
      · exact hNPE c hc
    have hpath : (urlparse (pyStripList
        ("https://youtu.be/".data ++ (id.data ++ "/extra?t=1".data)))).path =
        '/' :: (id.data ++ "/extra".data) := by
      rw [hstrip]
      show (('/' :: id.data) ++ "/extra?t=1".data).takeWhile notPathEnd =
        ('/' :: id.data) ++ "/extra".data
      rw [takeWhile_append_all hsl]
      rfl
    have hdrop6 : (('/' :: (id.data ++ "/extra".data)).dropWhile (fun c => c = '/')) =
        id.data ++ "/extra".data := by
      rw [List.dropWhile_cons, if_pos (by rfl)]
      rw [hid, List.cons_append,
        dropWhile_cons_false (decide_eq_false (hNoSlash c0 hc0mem))]
    have hex : extractL ("https://youtu.be/".data ++ (id.data ++ "/extra?t=1".data)) =
        .ok (id.data ++ "/extra".data) := by
      have h0 := extractL_youtube_be hune hhost hpath (by simp)
      rw [hdrop6] at h0
      exact h0
    exact extract_ok_of (by rw [hdata]; exact hex)

/-- Witness for the amended C2 at a concrete identifier. -/
theorem C2_amended_witness :
    extract_video_id ("https://www.youtube.com/watch?v=" ++ "dQw4w9WgXcQ" ++ "&t=1") =
      .ok "dQw4w9WgXcQ" :=
  (C2_amended "dQw4w9WgXcQ" (by decide)).1

/-! ### Claim C4: validation of returned identifiers -/

/-- Claim C4 is false on this code: the `youtu.be` branch returns the raw
path unvalidated, so resolution can return a 3-character string, and even
the empty string for `https://youtu.be/`. -/
theorem C4_counterexample :
    extract_video_id "https://youtu.be/abc" = .ok "abc" ∧
    fullmatch11 "abc".data = false ∧
    extract_video_id "https://youtu.be/" = .ok "" :=
  ⟨rfl, by decide, rfl⟩

/-- Amended C4: identifiers produced by the youtube-host path scan and by
the final regex fallback are validated 11-character `[A-Za-z0-9_-]`
strings, and inputs with no extractable identifier are rejected with the
`InvalidUrl` `ValueError`; but the `youtu.be` branch (and likewise the
`watch` `v`-parameter branch) returns its raw string unvalidated, so
non-11-character results occur. -/
theorem C4_amended :
    (∀ u g, regexSearch u = some g → fullmatch11 g = true) ∧
    (∀ p g, (splitChar '/' p).find? (fun part => fullmatch11 part) = some g →
      fullmatch11 g = true) ∧
    extract_video_id "https://youtu.be/abc" = .ok "abc" ∧
    fullmatch11 "abc".data = false ∧
    extract_video_id "not a url" =
      .error "Could not extract a video ID from the provided URL." :=
  ⟨fun _ _ hg => regexSearch_valid hg,
   fun _ _ hg => List.find?_some hg,
   rfl, by decide, rfl⟩

/-- Witness for the amended C4: the regex fallback clause applied at a
concrete input. -/
theorem C4_amended_witness : fullmatch11 "abcdefghijk".data = true :=
  C4_amended.1 "embed/abcdefghijk".data "abcdefghijk".data rfl

end Notetaker
